import Mathlib

/-!
Verification of the ZWO EFW filter-wheel / EAF focuser control programs
(`zwoefw-set.c` and the companion focuser tool).

Shallow embedding conventions:
* A received or sent HID feature report is a `List Nat` of byte values; reads
  of `uint8_t buf[i]` go through `byteAt`, which reduces mod 256 (the C type).
* Transport calls (`hid_send_feature_report` / `hid_get_feature_report`) are
  represented by their integer return values, supplied by the environment; the
  driver functions compare them against `ZWO_REPORT_LEN` exactly as the C does.
* Each `main` is a function of an environment (argument string, success of
  `hid_init` / `hid_open` / the string queries, and a stream of poll
  exchanges) plus a fuel parameter for the C `for(;;)` / `while` loops; fuel
  exhaustion (`exitCode = none`) models the C program still running.
* `stderr`/`stdout` output and `usleep` are not modelled; the "unexpected
  values in ... report" consistency dumps in the C only log and never change
  control flow.
-/

namespace ZwoSet

/-- Value of `buf[i]` for a C `uint8_t` array modelled as `List Nat`:
out-of-range indices give 0 and entries are reduced mod 256. -/
def byteAt (buf : List Nat) (i : Nat) : Nat := buf.getD i 0 % 256

/-- Constant `ZWO_REPORT_LEN` from both C files. -/
def ZWO_REPORT_LEN : Nat := 16

/-- Characters skipped by `strtol` before the number (C `isspace`). -/
def isSpaceC (c : Char) : Bool :=
  c == ' ' || c == '\t' || c == '\n' || c == '\r'

/-- Numeric value of a decimal digit character. -/
def digitVal (c : Char) : Nat := c.toNat - '0'.toNat

/-- Model of the C library call `strtol(s, NULL, 10)` as used on CLI
arguments: skip spaces, take an optional sign, then the longest digit
prefix; with no digits the result is 0. (Overflow clamping to `LONG_MAX`
is not modelled; for the range checks in these programs a huge value and
its clamp are on the same side of the bound.) -/
def strtol10 (s : List Char) : Int :=
  let s1 := s.dropWhile isSpaceC
  let neg := match s1 with
    | '-' :: _ => true
    | _ => false
  let s2 := match s1 with
    | '-' :: r => r
    | '+' :: r => r
    | r => r
  let ds := s2.takeWhile Char.isDigit
  let v : Int := Int.ofNat (ds.foldl (fun acc c => acc * 10 + digitVal c) 0)
  if neg then -v else v

/-- One request/response exchange as seen by a driver `get_...` function:
the byte counts returned by the send and the read, and the 16-byte report
that `hid_get_feature_report` stored (index 0 is the report id). -/
structure PollIn where
  sendRes : Nat
  readRes : Nat
  buf : List Nat

/-! ## Filter wheel driver (`zwoefw-set.c`) -/

/-- Function `efw_get_position`: returns the C `int` result and the value stored to
`*slotret` (written only on the settled path, exactly as in the C).
Retval −1 is transport failure or the unrecoverable device state, 0 is
settled, 1 is "caller should wait it out". -/
def efw_get_position (p : PollIn) : Int × Option Nat :=
  if p.sendRes ≠ ZWO_REPORT_LEN then (-1, none)
  else if p.readRes ≠ ZWO_REPORT_LEN then (-1, none)
  else
    let status := byteAt p.buf 4
    let errcode := byteAt p.buf 5
    let slot_current := byteAt p.buf 6
    if byteAt p.buf 6 = byteAt p.buf 7 ∧ byteAt p.buf 7 = byteAt p.buf 8 ∧ status = 1 then
      (0, some slot_current)
    else if status = 6 ∨ errcode ≠ 0 then (-1, none)
    else (1, none)

/-- Expression `nextslot = ((slot - 1 + 1) % 7) + 1` from the move loop in `main`;
the `uint8_t` operand is promoted to `int` in C, hence the `Int` arithmetic. -/
def nextSlot (slot : Nat) : Nat := ((((slot : Int) - 1 + 1) % 7) + 1).toNat

/-- The 16-byte command frame built by `efw_set_position`. -/
def efw_set_position_frame (slot : Nat) : List Nat :=
  [0x03, 0x7e, 0x5a, 0x01, 0x02, slot % 256, 0, 0, 0, 0, 0, 0, 0, 0, 0, 0]

/-- Function `efw_set_position`: the slot-range guard, then the send (no response
report exists for this command). -/
def efw_set_position (slot : Nat) (sendRes : Nat) : Int :=
  if slot < 1 ∨ slot > 7 then -1
  else if sendRes ≠ ZWO_REPORT_LEN then -1
  else 0

/-- Function `efw_get_info`: transport failures return −1; the `memcmp` against the
identification constant only logs to stderr and the call returns 0. -/
def efw_get_info (sendRes readRes : Nat) : Int :=
  if sendRes ≠ ZWO_REPORT_LEN then -1
  else if readRes ≠ ZWO_REPORT_LEN then -1
  else 0

/-- The inner `for (i = 0; i < 100; i++)` poll loop of the move loop:
`none` is the −1 (goto errexit) path; otherwise the updated `slot`
variable and the index of the next unconsumed poll are returned, whether
the loop broke at `nextslot` or ran out of attempts. -/
def efwInner (polls : Nat → PollIn) : Nat → Nat → Nat → Nat → Option (Nat × Nat)
  | 0, _, slot, k => some (slot, k)
  | i + 1, next, slot, k =>
    let r := efw_get_position (polls k)
    if r.1 = -1 then none
    else
      let slot' := r.2.getD slot
      if r.1 = 0 ∧ slot' = next then some (slot', k + 1)
      else efwInner polls i next slot' (k + 1)

/-- How the outer move loop of `main` ends. -/
inductive MoveExit where
  | done (slot : Nat)
  | fatal
  | sendFail
  | fuelOut
  deriving Repr, DecidableEq

/-- The outer `while (slot != targetslot)` loop of `main`: returns the list
of `efw_set_position` calls as pairs (settled slot when issued, commanded
slot) and the way the loop ended. `cmdSend j` is the transport result of
the send inside the j-th `efw_set_position` call. -/
def efwMove (polls : Nat → PollIn) (cmdSend : Nat → Nat) :
    Nat → Nat → Nat → Nat → Nat → List (Nat × Nat) × MoveExit
  | 0, _, _, _, _ => ([], .fuelOut)
  | fuel + 1, slot, target, k, j =>
    if slot = target then ([], .done slot)
    else
      let next := nextSlot slot
      if efw_set_position next (cmdSend j) = -1 then ([(slot, next)], .sendFail)
      else
        match efwInner polls 100 next slot k with
        | none => ([(slot, next)], .fatal)
        | some (slot', k') =>
          let r := efwMove polls cmdSend fuel slot' target k' (j + 1)
          ((slot, next) :: r.1, r.2)

/-- Result of the initial unbounded `for(;;)` status loop. -/
inductive InitRes where
  | fuelOut
  | fatal
  | ok (slot : Nat) (k : Nat)
  deriving Repr, DecidableEq

/-- The initial `for(;;)` loop in the wheel `main`: poll until settled
(break) or −1 (errexit). -/
def efwInitLoop (polls : Nat → PollIn) : Nat → Nat → InitRes
  | 0, _ => .fuelOut
  | fuel + 1, k =>
    let r := efw_get_position (polls k)
    if r.1 = -1 then .fatal
    else if r.1 = 0 then .ok (r.2.getD 0) (k + 1)
    else efwInitLoop polls fuel (k + 1)

/-- The `strtol` call plus range check at the top of the wheel `main`:
`none` means "invalid filter slot requested" (goto errexitlast),
`some t` is the chosen `targetslot` (0 when no argument was given). -/
def efwParseArg (arg : Option (List Char)) : Option Nat :=
  match arg with
  | none => some 0
  | some a =>
    let v := strtol10 a
    if v < 1 ∨ v > 7 then none else some v.toNat

/-- External world of one run of the wheel program (non-Apple build, so the
manufacturer/product string queries are present). -/
structure EfwEnv where
  arg : Option (List Char)
  initOk : Bool
  openOk : Bool
  manufOk : Bool
  prodOk : Bool
  infoSendRes : Nat
  infoReadRes : Nat
  polls : Nat → PollIn
  cmdSend : Nat → Nat

/-- Observable outcome of a run: whether `hid_open` succeeded, how many
times `hid_close` ran, the `efw_set_position` calls issued, and the exit
code (`none` = the program is still looping when the fuel runs out). -/
structure EfwRun where
  opened : Bool
  closes : Nat
  cmds : List (Nat × Nat)
  exitCode : Option Nat
  deriving Repr, DecidableEq

/-- The wheel `main`, path by path: argument check (errexitlast: no close),
`hid_init` (errexitlast), `hid_open` (errexit with NULL handle: no close),
the two string queries and `efw_get_info` (errexit: close), the initial
status loop, then the move loop; normal exit closes once and exits 0. -/
def efwMain (env : EfwEnv) (fuel : Nat) : EfwRun :=
  match efwParseArg env.arg with
  | none => ⟨false, 0, [], some 2⟩
  | some target0 =>
    if env.initOk = false then ⟨false, 0, [], some 2⟩
    else if env.openOk = false then ⟨false, 0, [], some 2⟩
    else if env.manufOk = false then ⟨true, 1, [], some 2⟩
    else if env.prodOk = false then ⟨true, 1, [], some 2⟩
    else if efw_get_info env.infoSendRes env.infoReadRes ≠ 0 then ⟨true, 1, [], some 2⟩
    else
      match efwInitLoop env.polls fuel 0 with
      | .fuelOut => ⟨true, 0, [], none⟩
      | .fatal => ⟨true, 1, [], some 2⟩
      | .ok slot k =>
        let target := if target0 = 0 then slot else target0
        let r := efwMove env.polls env.cmdSend fuel slot target k 0
        match r.2 with
        | .fuelOut => ⟨true, 0, r.1, none⟩
        | .fatal => ⟨true, 1, r.1, some 2⟩
        | .sendFail => ⟨true, 1, r.1, some 2⟩
        | .done _ => ⟨true, 1, r.1, some 0⟩

/-! ## Focuser driver (the companion `zwoeaf-set` source) -/

/-- What `eaf_get_position` does to the caller: its C `int` result and the
values stored through `*posret` / `*posmaxret` (if at all). -/
structure EafRead where
  retval : Int
  posret : Option Nat
  posmaxret : Option Nat
  deriving Repr, DecidableEq

/-- Function `eaf_get_position`: NULL `posret` check, send, read, then field
extraction. On every transport-successful read the position
`(buf[8] << 8) | buf[9]` is stored to `*posret` and the maximum
`(buf[14] << 8) | buf[15]` to `*posmaxret` when supplied, before the
status byte decides between retval 0 (stable) and 1 (moving). The `% 65536`
is the `uint16_t` type of the stored values. -/
def eaf_get_position (p : PollIn) (hasPosPtr hasMaxPtr : Bool) : EafRead :=
  if hasPosPtr = false then ⟨-1, none, none⟩
  else if p.sendRes ≠ ZWO_REPORT_LEN then ⟨-1, none, none⟩
  else if p.readRes ≠ ZWO_REPORT_LEN then ⟨-1, none, none⟩
  else
    let status := byteAt p.buf 4
    let position := (byteAt p.buf 8 <<< 8 ||| byteAt p.buf 9) % 65536
    let posmax := (byteAt p.buf 14 <<< 8 ||| byteAt p.buf 15) % 65536
    ⟨if status ≠ 0 then 1 else 0, some position,
      if hasMaxPtr then some posmax else none⟩

/-- The 16-byte command frame built by `eaf_set_position` for a `uint16_t`
target: big-endian position at bytes 8 and 9, fixed tail 0x02 0xEA 0x60 at
bytes 13..15, the rest zero from the `memset`. -/
def eaf_set_position_frame (pos : Nat) : List Nat :=
  let p := pos % 65536
  [0x03, 0x7e, 0x5a, 0x03, 0x01, 0, 0, 0,
   (p >>> 8) &&& 0xff, p &&& 0xff, 0, 0, 0, 0x02, 0xea, 0x60]

/-- Function `eaf_set_position`: only the send can fail; no response report exists. -/
def eaf_set_position (pos : Nat) (sendRes : Nat) : Int :=
  if sendRes ≠ ZWO_REPORT_LEN then -1 else 0

/-- Outcome of the argument handling at the top of the focuser `main`. -/
inductive EafArg where
  | noTarget
  | reject
  | target (rel : Bool) (neg : Bool) (tp : Int)
  deriving Repr, DecidableEq

/-- Argument handling of the focuser `main`: a leading `-` or `+` marks a
relative move (`neg` records a leading `-`), the rest goes through
`strtol`; a value outside `[0, 0xffff]` is "invalid position requested"
(goto errexitlast). No argument leaves the `targetpos = -1` sentinel. -/
def eafParseArg (arg : Option (List Char)) : EafArg :=
  match arg with
  | none => .noTarget
  | some s =>
    let rel := match s with
      | '-' :: _ => true
      | '+' :: _ => true
      | _ => false
    let neg := match s with
      | '-' :: _ => true
      | _ => false
    let s2 := match s with
      | '-' :: r => r
      | '+' :: r => r
      | r => r
    let tp := strtol10 s2
    if tp < 0 ∨ tp > 0xffff then .reject
    else if rel then .target true neg tp else .target false false tp

/-- Result of the initial focuser polling loop. -/
inductive EafLoopRes where
  | fuelOut
  | fatal
  | ok (pos posmax k : Nat)
  deriving Repr, DecidableEq

/-- The initial `for(;;)` loop in the focuser `main`: poll (with both out
pointers) until retval 0 (break) or −1 (errexit). -/
def eafInitLoop (polls : Nat → PollIn) : Nat → Nat → EafLoopRes
  | 0, _ => .fuelOut
  | fuel + 1, k =>
    let r := eaf_get_position (polls k) true true
    if r.retval = -1 then .fatal
    else if r.retval = 0 then .ok (r.posret.getD 0) (r.posmaxret.getD 0) (k + 1)
    else eafInitLoop polls fuel (k + 1)

/-- Result of the `while (pos != targetpos)` wait loop. -/
inductive EafWaitRes where
  | fuelOut
  | fatal
  | ok (pos k : Nat)
  deriving Repr, DecidableEq

/-- The `while (pos != targetpos)` loop after the set command: poll with a
NULL `posmaxret`, update `pos`, break once settled at the target (a poll
that reports the target while still moving also ends the loop, through the
loop condition at the next iteration; the C and this model agree because
the condition is re-checked first). -/
def eafWaitLoop (polls : Nat → PollIn) : Nat → Nat → Nat → Nat → EafWaitRes
  | 0, _, _, _ => .fuelOut
  | fuel + 1, k, pos, target =>
    if pos = target then .ok pos k
    else
      let r := eaf_get_position (polls k) true false
      if r.retval = -1 then .fatal
      else
        let pos' := r.posret.getD pos
        if r.retval = 0 ∧ pos' = target then .ok pos' (k + 1)
        else eafWaitLoop polls fuel (k + 1) pos' target

/-- Assignment `targetpos = pos + (targetpos * (*targetrelsign == '-' ? -1 : 1))`
(relative case) or the absolute value as parsed. -/
def eafResolve (rel neg : Bool) (tp : Int) (pos : Nat) : Int :=
  if rel then (pos : Int) + tp * (if neg then -1 else 1) else tp

/-- External world of one run of the focuser program. -/
structure EafEnv where
  arg : Option (List Char)
  initOk : Bool
  openOk : Bool
  polls : Nat → PollIn
  setSendRes : Nat

/-- Observable outcome of a focuser run (fields as in `EfwRun`; `cmds` is
the list of positions passed to `eaf_set_position`). -/
structure EafRun where
  opened : Bool
  closes : Nat
  cmds : List Nat
  exitCode : Option Nat
  deriving Repr, DecidableEq

/-- Everything after a successful `hid_open` in the focuser `main`:
initial loop, target resolution and range check (errexit before any set
command when out of range), the single `eaf_set_position`, wait loop. -/
def eafMainAfterOpen (env : EafEnv) (fuel : Nat) (pa : EafArg) : EafRun :=
  match eafInitLoop env.polls fuel 0 with
  | .fuelOut => ⟨true, 0, [], none⟩
  | .fatal => ⟨true, 1, [], some 2⟩
  | .ok pos posmax k =>
    match pa with
    | .noTarget => ⟨true, 1, [], some 0⟩
    | .reject => ⟨true, 1, [], some 2⟩
    | .target rel neg tp =>
      let resolved := eafResolve rel neg tp pos
      if resolved < 0 ∨ resolved > (posmax : Int) then ⟨true, 1, [], some 2⟩
      else
        let tgt := resolved.toNat % 65536
        if eaf_set_position tgt env.setSendRes = -1 then ⟨true, 1, [tgt], some 2⟩
        else
          match eafWaitLoop env.polls fuel k pos tgt with
          | .fuelOut => ⟨true, 0, [tgt], none⟩
          | .fatal => ⟨true, 1, [tgt], some 2⟩
          | .ok _ _ => ⟨true, 1, [tgt], some 0⟩

/-- The focuser `main`: argument check and `hid_init` fail before the open
(errexitlast: no handle, no close); a failed open goes to errexit with a
NULL handle (no close); afterwards every path closes exactly once. -/
def eafMain (env : EafEnv) (fuel : Nat) : EafRun :=
  if eafParseArg env.arg = .reject then ⟨false, 0, [], some 2⟩
  else if env.initOk = false then ⟨false, 0, [], some 2⟩
  else if env.openOk = false then ⟨false, 0, [], some 2⟩
  else eafMainAfterOpen env fuel (eafParseArg env.arg)

/-! ## Concrete response frames and environments used in the
counterexamples and witnesses -/

/-- A wheel position report: settled (status 1, error code 0) with all
three consistency bytes equal to `s`. -/
def efwSettledPoll (s : Nat) : PollIn :=
  ⟨16, 16, [0x01, 0x7e, 0x5a, 0x01, 1, 0, s, s, s, 7, 0, 0, 0, 0, 0x30, 0]⟩

/-- A wheel position report while the wheel is turning: status 4, error
code 0, disagreeing consistency bytes. -/
def efwMovingPoll : PollIn :=
  ⟨16, 16, [0x01, 0x7e, 0x5a, 0x01, 4, 0, 1, 2, 3, 7, 0, 0, 0, 0, 0x30, 0]⟩

/-- Poll stream for the step-timeout scenario: the wheel settles at slot 1,
then stays "moving" for the whole 100-attempt window after the first step
command, then settles at slot 2. -/
def timeoutPolls : Nat → PollIn := fun k =>
  if k = 0 then efwSettledPoll 1
  else if k ≤ 100 then efwMovingPoll
  else efwSettledPoll 2

/-- Wheel environment for the step-timeout scenario: argument "2",
everything else healthy. -/
def timeoutEnv : EfwEnv :=
  ⟨some ['2'], true, true, true, true, 16, 16, timeoutPolls, fun _ => 16⟩

/-- Poll stream for the stepping-order scenario: settled at 3, then the
wheel settles at each commanded slot on the first poll. -/
def steppingPolls : Nat → PollIn := fun k =>
  if k = 0 then efwSettledPoll 3
  else if k = 1 then efwSettledPoll 4
  else if k = 2 then efwSettledPoll 5
  else efwSettledPoll 6

/-- Wheel environment for the stepping-order scenario: argument "6". -/
def steppingEnv : EfwEnv :=
  ⟨some ['6'], true, true, true, true, 16, 16, steppingPolls, fun _ => 16⟩

/-- A focuser position report: stable (status 0) at position `pos` with
device maximum `mx`. -/
def eafSettledPoll (pos mx : Nat) : PollIn :=
  ⟨16, 16, [0x01, 0x7e, 0x5a, 0x03, 0, 0, 0, 0, pos / 256, pos % 256, 0, 0,
    0, 0, mx / 256, mx % 256]⟩

/-- Focuser environment for the malformed-argument scenario: argument
"abc", device settled at 100 (max 1000), later settled at 0. -/
def abcEnv : EafEnv :=
  ⟨some ['a', 'b', 'c'], true, true,
    fun k => if k = 0 then eafSettledPoll 100 1000 else eafSettledPoll 0 1000, 16⟩

/-- Focuser environment for the out-of-range relative move: argument
"+30" with the device settled at 100 and maximum 100. -/
def relRejectEnv : EafEnv :=
  ⟨some ['+', '3', '0'], true, true, fun _ => eafSettledPoll 100 100, 16⟩

/-- Focuser environment with the out-of-range argument "999999". -/
def bigArgEnv : EafEnv :=
  ⟨some ['9', '9', '9', '9', '9', '9'], true, true,
    fun _ => eafSettledPoll 0 1000, 16⟩

/-- A focuser position report from the capture in the C comments: stable
(status 0) at position 0x6590 = 26000, maximum 0xEA60 = 60000. -/
def eafStableBuf : List Nat :=
  [0x01, 0x7e, 0x5a, 0x03, 0, 0, 0, 0, 0x65, 0x90, 0, 0x7f, 0xd2, 0, 0xea, 0x60]

/-- A focuser position report while moving: status 1, position 0x61D6. -/
def eafMovingBuf : List Nat :=
  [0x01, 0x7e, 0x5a, 0x03, 1, 0, 0, 0, 0x61, 0xd6, 0, 0x7f, 0xd2, 0, 0xea, 0x60]

/-! ## Helper lemmas -/

/-- In C the `uint8_t` slot is promoted to `int`, so
`((slot - 1 + 1) % 7) + 1` is just `slot % 7 + 1`. -/
theorem nextSlot_eq (s : Nat) : nextSlot s = s % 7 + 1 := by
  unfold nextSlot
  omega

/-- The forward step always lands in the valid slot range. -/
theorem nextSlot_bounds (s : Nat) : 1 ≤ nextSlot s ∧ nextSlot s ≤ 7 := by
  rw [nextSlot_eq]
  omega

theorem byteAt_lt (buf : List Nat) (i : Nat) : byteAt buf i < 256 :=
  Nat.mod_lt _ (by norm_num)

/-- Combining a high byte shifted left by 8 with a low byte below 256 is
plain big-endian place value. -/
theorem shiftLeft_lor_eq (a b : Nat) (hb : b < 256) : a <<< 8 ||| b = a * 256 + b := by
  have hb' : b < 2 ^ 8 := by norm_num [hb]
  rw [Nat.shiftLeft_eq, Nat.mul_comm a (2 ^ 8), ← Nat.mul_add_lt_is_or hb' a]

/-- A command for a slot in the valid range with a healthy transport
succeeds. -/
theorem efw_set_position_ok (s : Nat) (h1 : 1 ≤ s) (h7 : s ≤ 7) :
    efw_set_position s 16 = 0 := by
  unfold efw_set_position ZWO_REPORT_LEN
  have : ¬(s < 1 ∨ s > 7) := by omega
  rw [if_neg this, if_neg (by norm_num)]

/-- If every poll in the window reports "moving", the inner loop exhausts
all of its attempts and hands the unchanged slot back to the outer loop. -/
theorem efwInner_exhaust (polls : Nat → PollIn) (next : Nat) :
    ∀ n slot k, (∀ j, j < n → efw_get_position (polls (k + j)) = (1, none)) →
      efwInner polls n next slot k = some (slot, k + n) := by
  intro n
  induction n with
  | zero => intro slot k _; simp [efwInner]
  | succ n ih =>
    intro slot k h
    have h0 : efw_get_position (polls k) = (1, none) := by
      have := h 0 (by omega)
      simpa using this
    simp only [efwInner, h0]
    norm_num
    have := ih slot (k + 1) (fun j hj => by
      have := h (j + 1) (by omega)
      have he : k + 1 + j = k + (j + 1) := by omega
      rw [he]
      exact this)
    rw [this]
    simp only [Option.some.injEq, Prod.mk.injEq]
    exact ⟨trivial, by omega⟩

/-- A wheel that never settles keeps the move loop running forever (fuel
exhaustion in the model): exhausting a step's retry window re-enters the
outer loop instead of failing the run. -/
theorem efwMove_never_settles (polls : Nat → PollIn) (cmdSend : Nat → Nat)
    (hm : ∀ i, efw_get_position (polls i) = (1, none))
    (hs : ∀ i, cmdSend i = 16) :
    ∀ fuel slot target k j, slot ≠ target →
      (efwMove polls cmdSend fuel slot target k j).2 = MoveExit.fuelOut := by
  intro fuel
  induction fuel with
  | zero => intro slot target k j _; simp [efwMove]
  | succ fuel ih =>
    intro slot target k j hne
    have hsend : ¬(efw_set_position (nextSlot slot) (cmdSend j) = -1) := by
      rw [hs j, efw_set_position_ok _ (nextSlot_bounds slot).1 (nextSlot_bounds slot).2]
      norm_num
    have hin : efwInner polls 100 (nextSlot slot) slot k = some (slot, k + 100) :=
      efwInner_exhaust polls (nextSlot slot) 100 slot k (fun j _ => hm (k + j))
    simp only [efwMove, if_neg hne, if_neg hsend, hin]
    exact ih slot target (k + 100) (j + 1) hne

/-- Every command the move loop issues is the forward successor of the
slot variable at the moment of issue. -/
theorem efwMove_cmds_nextSlot (polls : Nat → PollIn) (cmdSend : Nat → Nat) :
    ∀ fuel slot target k j p,
      p ∈ (efwMove polls cmdSend fuel slot target k j).1 → p.2 = nextSlot p.1 := by
  intro fuel
  induction fuel with
  | zero => intro slot target k j p hp; simp [efwMove] at hp
  | succ fuel ih =>
    intro slot target k j p hp
    by_cases hst : slot = target
    · simp [efwMove, hst] at hp
    · simp only [efwMove, if_neg hst] at hp
      by_cases hsend : efw_set_position (nextSlot slot) (cmdSend j) = -1
      · rw [if_pos hsend] at hp
        simp at hp
        rw [hp]
      · rw [if_neg hsend] at hp
        rcases hin : efwInner polls 100 (nextSlot slot) slot k with _ | ⟨slot', k'⟩
        · rw [hin] at hp
          simp at hp
          rw [hp]
        · rw [hin] at hp
          simp only [List.mem_cons] at hp
          rcases hp with hp | hp
          · rw [hp]
          · exact ih slot' target k' (j + 1) p hp

/-! ## Claim C1 -/

/-- Claim C1, counterexample: a successfully read position report with
status 1, error code 5 and agreeing consistency bytes (3,3,3) is
classified settled with slot 3 (retval 0), not Fatal (−1), although the
error-code byte is nonzero — the settled check precedes the fatal check
in `efw_get_position`. -/
theorem efw_classify_errcode_cex :
    efw_get_position ⟨16, 16,
      [0x01, 0x7e, 0x5a, 0x01, 1, 5, 3, 3, 3, 7, 0, 0, 0, 0, 0x30, 0]⟩ = (0, some 3) ∧
    byteAt [0x01, 0x7e, 0x5a, 0x01, 1, 5, 3, 3, 3, 7, 0, 0, 0, 0, 0x30, 0] 5 ≠ 0 := by
  decide

/-- Claim C1 (amended): for every successfully read position response
frame the classification is: settled (retval 0) with slot equal to the
first consistency byte exactly when the three consistency bytes (offsets
6, 7, 8) are pairwise equal and the status byte (offset 4) is 1; when the
settled condition fails, Fatal (−1) exactly when status is 6 or the
error-code byte (offset 5) is nonzero; Moving (retval 1) in every
remaining case. (The fatal conditions are examined only after the settled
condition has failed.) -/
theorem efw_classify (buf : List Nat) :
    ((efw_get_position ⟨16, 16, buf⟩).1 = 0 ↔
      byteAt buf 6 = byteAt buf 7 ∧ byteAt buf 7 = byteAt buf 8 ∧ byteAt buf 4 = 1) ∧
    ((efw_get_position ⟨16, 16, buf⟩).2 =
      if byteAt buf 6 = byteAt buf 7 ∧ byteAt buf 7 = byteAt buf 8 ∧ byteAt buf 4 = 1
        then some (byteAt buf 6) else none) ∧
    ((efw_get_position ⟨16, 16, buf⟩).1 = -1 ↔
      ¬(byteAt buf 6 = byteAt buf 7 ∧ byteAt buf 7 = byteAt buf 8 ∧ byteAt buf 4 = 1) ∧
        (byteAt buf 4 = 6 ∨ byteAt buf 5 ≠ 0)) ∧
    ((efw_get_position ⟨16, 16, buf⟩).1 = 1 ↔
      ¬(byteAt buf 6 = byteAt buf 7 ∧ byteAt buf 7 = byteAt buf 8 ∧ byteAt buf 4 = 1) ∧
        ¬(byteAt buf 4 = 6 ∨ byteAt buf 5 ≠ 0)) := by
  unfold efw_get_position ZWO_REPORT_LEN
  norm_num
  split_ifs with h1 h2 <;> simp_all <;> tauto

/-! ## Claim C2 -/

/-- Claim C2, counterexample: with argument "2" the wheel settles at slot
1, then the whole 100-attempt window after the first step command reports
"moving" — the step does not settle within the bounded retry window — yet
the run does not fail: the outer loop silently re-issues the step command
and the run exits with code 0, not 2. -/
theorem efw_step_timeout_cex :
    efwInner timeoutPolls 100 2 1 1 = some (1, 101) ∧
    efwMain timeoutEnv 10 =
      { opened := true, closes := 1, cmds := [(1, 2), (1, 2)], exitCode := some 0 } := by
  decide

/-- Claim C2 (amended): the retry window for a single forward step is
bounded at 100 poll attempts (500 ms apart in the C), but exhausting it
does not fail the run: the inner loop hands the unchanged slot back to
the outer loop, which re-issues the single-step command; a wheel that
never settles keeps the run polling forever (fuel exhaustion in the
model) rather than exiting, and no exit with code 2 arises from window
exhaustion alone. -/
theorem efw_step_window :
    (∀ polls next slot k,
      (∀ j, j < 100 → efw_get_position (polls (k + j)) = (1, none)) →
      efwInner polls 100 next slot k = some (slot, k + 100)) ∧
    (∀ polls cmdSend fuel slot target k j,
      (∀ i, efw_get_position (polls i) = (1, none)) → (∀ i, cmdSend i = 16) →
      slot ≠ target →
      (efwMove polls cmdSend fuel slot target k j).2 = MoveExit.fuelOut) :=
  ⟨fun polls next slot k h => efwInner_exhaust polls next 100 slot k h,
   fun polls cmdSend fuel slot target k j hm hs hne =>
     efwMove_never_settles polls cmdSend hm hs fuel slot target k j hne⟩

/-- Witness for the amended C2 at concrete inputs: an all-moving poll
stream exhausts the window with the slot unchanged, and the move loop
from slot 1 towards target 2 runs out of fuel rather than erroring. -/
theorem efw_step_window_witness :
    efwInner (fun _ => efwMovingPoll) 100 2 1 1 = some (1, 101) ∧
    (efwMove (fun _ => efwMovingPoll) (fun _ => 16) 5 1 2 0 0).2 = MoveExit.fuelOut :=
  ⟨efw_step_window.1 (fun _ => efwMovingPoll) 2 1 1 (fun j _ => rfl),
   efw_step_window.2 (fun _ => efwMovingPoll) (fun _ => 16) 5 1 2 0 0
     (fun i => rfl) (fun i => rfl) (by decide)⟩

/-! ## Claim C3 -/

/-- Claim C3: the wheel move controller only ever issues set-position
commands for the slot ((current − 1 + 1) mod 7) + 1, where current is the
settled slot at issue time — one forward step at a time, for any poll
stream and any fuel; concretely, from settled slot 3 with target slot 6 it
issues commands for slots 4, then 5, then 6 in that order and never
commands 6 directly. -/
theorem efw_stepping :
    (∀ polls cmdSend fuel slot target k j p,
      p ∈ (efwMove polls cmdSend fuel slot target k j).1 → p.2 = nextSlot p.1) ∧
    ((efwMain steppingEnv 10).cmds.map Prod.snd = [4, 5, 6] ∧
      (efwMain steppingEnv 10).exitCode = some 0) :=
  ⟨fun polls cmdSend fuel slot target k j p hp =>
      efwMove_cmds_nextSlot polls cmdSend fuel slot target k j p hp,
   by decide⟩

/-- Witness for C3: the first command of the 3 → 6 run is the forward
successor of slot 3. -/
theorem efw_stepping_witness : (4 : Nat) = nextSlot 3 :=
  efw_stepping.1 steppingPolls (fun _ => 16) 10 3 6 1 0 (3, 4) (by decide)

/-! ## Claim C9 -/

/-- Claim C9: the next-slot value computed by the move loop lies in [1,7]
for every current slot in [1,7] (the bound in fact holds for every slot
byte), so the InvalidSlot rejection branch of `efw_set_position`
(slot < 1 or slot > 7) can never fire for a command issued from the move
loop. -/
theorem efw_invalid_slot_unreachable :
    (∀ s, 1 ≤ s → s ≤ 7 → 1 ≤ nextSlot s ∧ nextSlot s ≤ 7) ∧
    (∀ polls cmdSend fuel slot target k j p,
      p ∈ (efwMove polls cmdSend fuel slot target k j).1 → ¬(p.2 < 1 ∨ p.2 > 7)) :=
  ⟨fun s _ _ => nextSlot_bounds s,
   fun polls cmdSend fuel slot target k j p hp => by
     have h := efwMove_cmds_nextSlot polls cmdSend fuel slot target k j p hp
     have hb := nextSlot_bounds p.1
     omega⟩

/-- Witness for C9 at slot 3 and at the first command of the 3 → 6 run. -/
theorem efw_invalid_slot_unreachable_witness :
    (1 ≤ nextSlot 3 ∧ nextSlot 3 ≤ 7) ∧ ¬((4 : Nat) < 1 ∨ (4 : Nat) > 7) :=
  ⟨efw_invalid_slot_unreachable.1 3 (by decide) (by decide),
   efw_invalid_slot_unreachable.2 steppingPolls (fun _ => 16) 10 3 6 1 0 (3, 4)
     (by decide)⟩

/-! ## Claim C4 -/

/-- Claim C4: for every pos in [0, 65535] the focuser set-position frame is
16 bytes, carries the big-endian encoding of pos at bytes 8 and 9, holds
the fixed constants report id 0x03, header 0x7E 0x5A, command 0x03,
subcommand 0x01 and tail 0x02 0xEA 0x60 at bytes 13..15, and is zero
everywhere else. -/
theorem eaf_set_position_frame_spec (pos : Nat) (h : pos ≤ 65535) :
    (eaf_set_position_frame pos).length = 16 ∧
    (eaf_set_position_frame pos).getD 8 0 * 256 + (eaf_set_position_frame pos).getD 9 0
      = pos ∧
    (eaf_set_position_frame pos).getD 0 0 = 0x03 ∧
    (eaf_set_position_frame pos).getD 1 0 = 0x7e ∧
    (eaf_set_position_frame pos).getD 2 0 = 0x5a ∧
    (eaf_set_position_frame pos).getD 3 0 = 0x03 ∧
    (eaf_set_position_frame pos).getD 4 0 = 0x01 ∧
    (eaf_set_position_frame pos).getD 13 0 = 0x02 ∧
    (eaf_set_position_frame pos).getD 14 0 = 0xea ∧
    (eaf_set_position_frame pos).getD 15 0 = 0x60 ∧
    (eaf_set_position_frame pos).getD 5 0 = 0 ∧
    (eaf_set_position_frame pos).getD 6 0 = 0 ∧
    (eaf_set_position_frame pos).getD 7 0 = 0 ∧
    (eaf_set_position_frame pos).getD 10 0 = 0 ∧
    (eaf_set_position_frame pos).getD 11 0 = 0 ∧
    (eaf_set_position_frame pos).getD 12 0 = 0 := by
  have hm : pos % 65536 = pos := Nat.mod_eq_of_lt (by omega)
  have h255 : (0xff : Nat) = 2 ^ 8 - 1 := by norm_num
  refine ⟨rfl, ?_, rfl, rfl, rfl, rfl, rfl, rfl, rfl, rfl, rfl, rfl, rfl, rfl, rfl, rfl⟩
  show ((pos % 65536) >>> 8 &&& 0xff) * 256 + ((pos % 65536) &&& 0xff) = pos
  rw [hm, h255, Nat.and_pow_two_sub_one_eq_mod, Nat.and_pow_two_sub_one_eq_mod,
    Nat.shiftRight_eq_div_pow]
  norm_num
  omega

/-- Witness for C4 at pos 26000 (0x6590, the capture in the C comments). -/
theorem eaf_set_position_frame_spec_witness :
    (26000 : Nat) ≤ 65535 ∧
    (eaf_set_position_frame 26000).getD 8 0 * 256 +
      (eaf_set_position_frame 26000).getD 9 0 = 26000 :=
  ⟨by decide, (eaf_set_position_frame_spec 26000 (by decide)).2.1⟩

/-! ## Claim C5 -/

/-- Claim C5: the focuser get_position is settled (retval 0) exactly when
the status byte (offset 4) is 0, with the position taken big-endian from
offsets 8–9 and the maximum big-endian from offsets 14–15; every nonzero
status byte gives moving (retval 1); a wrong byte count on either the
send or the read step gives Fatal (−1). -/
theorem eaf_get_position_spec (buf : List Nat) (hasMax : Bool) :
    ((eaf_get_position ⟨16, 16, buf⟩ true hasMax).retval = 0 ↔ byteAt buf 4 = 0) ∧
    (byteAt buf 4 ≠ 0 → (eaf_get_position ⟨16, 16, buf⟩ true hasMax).retval = 1) ∧
    ((eaf_get_position ⟨16, 16, buf⟩ true hasMax).posret =
      some (byteAt buf 8 * 256 + byteAt buf 9)) ∧
    ((eaf_get_position ⟨16, 16, buf⟩ true hasMax).posmaxret =
      if hasMax then some (byteAt buf 14 * 256 + byteAt buf 15) else none) ∧
    (∀ s r, s ≠ 16 ∨ r ≠ 16 →
      (eaf_get_position ⟨s, r, buf⟩ true hasMax).retval = -1) := by
  have hpos : (byteAt buf 8 <<< 8 ||| byteAt buf 9) % 65536
      = byteAt buf 8 * 256 + byteAt buf 9 := by
    rw [shiftLeft_lor_eq _ _ (byteAt_lt buf 9)]
    have h8 := byteAt_lt buf 8
    have h9 := byteAt_lt buf 9
    exact Nat.mod_eq_of_lt (by omega)
  have hmax : (byteAt buf 14 <<< 8 ||| byteAt buf 15) % 65536
      = byteAt buf 14 * 256 + byteAt buf 15 := by
    rw [shiftLeft_lor_eq _ _ (byteAt_lt buf 15)]
    have h14 := byteAt_lt buf 14
    have h15 := byteAt_lt buf 15
    exact Nat.mod_eq_of_lt (by omega)
  refine ⟨?_, ?_, ?_, ?_, ?_⟩
  · unfold eaf_get_position ZWO_REPORT_LEN
    norm_num
  · intro hstat
    unfold eaf_get_position ZWO_REPORT_LEN
    norm_num
    simp [hstat]
  · unfold eaf_get_position ZWO_REPORT_LEN
    norm_num [hpos]
  · unfold eaf_get_position ZWO_REPORT_LEN
    norm_num [hmax]
  · intro s r hsr
    unfold eaf_get_position ZWO_REPORT_LEN
    rcases hsr with h | h <;> split_ifs <;> simp_all

/-- Witness for C5 on the captured frames: stable at 26000, moving at a
nonzero status, and a short send (5 bytes) is fatal. -/
theorem eaf_get_position_spec_witness :
    (eaf_get_position ⟨16, 16, eafStableBuf⟩ true true).retval = 0 ∧
    (eaf_get_position ⟨16, 16, eafMovingBuf⟩ true true).retval = 1 ∧
    (eaf_get_position ⟨16, 16, eafStableBuf⟩ true true).posret = some 26000 ∧
    (eaf_get_position ⟨5, 16, eafStableBuf⟩ true true).retval = -1 :=
  ⟨(eaf_get_position_spec eafStableBuf true).1.mpr (by decide),
   (eaf_get_position_spec eafMovingBuf true).2.1 (by decide),
   by rw [(eaf_get_position_spec eafStableBuf true).2.2.1]; decide,
   (eaf_get_position_spec eafStableBuf true).2.2.2.2 5 16 (Or.inl (by decide))⟩

/-! ## Claim C6 -/

/-- Claim C6: a relative focuser target is the signed delta added to the
last settled position — current 100 with "-30" resolves to 70 and with
"+30" to 130 — and a resolved target that is negative or exceeds the
device maximum ends the run with exit code 2 before any set-position
command is issued (the issued-command list stays empty). -/
theorem eaf_relative_resolution :
    (eafResolve true true 30 100 = 70 ∧ eafResolve true false 30 100 = 130) ∧
    (eafParseArg (some ['-', '3', '0']) = EafArg.target true true 30 ∧
      eafParseArg (some ['+', '3', '0']) = EafArg.target true false 30) ∧
    (∀ env fuel rel neg tp pos posmax k,
      eafParseArg env.arg = EafArg.target rel neg tp →
      env.initOk = true → env.openOk = true →
      eafInitLoop env.polls fuel 0 = EafLoopRes.ok pos posmax k →
      (eafResolve rel neg tp pos < 0 ∨ eafResolve rel neg tp pos > (posmax : Int)) →
      (eafMain env fuel).cmds = [] ∧ (eafMain env fuel).exitCode = some 2) := by
  refine ⟨by decide, ⟨by decide, by decide⟩, ?_⟩
  intro env fuel rel neg tp pos posmax k hparse hinit hopen hloop hout
  unfold eafMain eafMainAfterOpen
  rw [hparse, hinit, hopen, hloop]
  simp [if_pos hout]

/-- Witness for C6: argument "+30" with the device settled at 100 and
maximum 100 resolves to 130 > 100 and the run rejects it with exit 2 and
no command. -/
theorem eaf_relative_resolution_witness :
    (eafMain relRejectEnv 5).cmds = [] ∧ (eafMain relRejectEnv 5).exitCode = some 2 :=
  eaf_relative_resolution.2.2 relRejectEnv 5 true false 30 100 100 1
    (by decide) rfl rfl (by decide) (Or.inr (by decide))

/-! ## Claim C7 -/

/-- Claim C7, counterexample: the malformed argument "abc" is not
rejected: `strtol` parses it as 0, it passes the range check as absolute
target 0, and the run contacts the device (opens it and issues a
set-position command for 0) and exits 0, not 2. -/
theorem eaf_malformed_arg_cex :
    eafParseArg (some ['a', 'b', 'c']) = EafArg.target false false 0 ∧
    eafMain abcEnv 10 =
      { opened := true, closes := 1, cmds := [0], exitCode := some 0 } := by
  decide

/-- Claim C7 (amended): the argument is parsed with `strtol`, so its value
is the numeric prefix (0 when there is none); only a parsed value outside
[0, 65535] is rejected — and such a rejection happens before any device
contact (no open, no command) with exit code 2. Every accepted target
value lies in [0, 65535]. -/
theorem eaf_arg_check :
    (∀ env fuel, eafParseArg env.arg = EafArg.reject →
      (eafMain env fuel).opened = false ∧ (eafMain env fuel).cmds = [] ∧
        (eafMain env fuel).exitCode = some 2) ∧
    (∀ s rel neg tp, eafParseArg (some s) = EafArg.target rel neg tp →
      0 ≤ tp ∧ tp ≤ 65535) := by
  constructor
  · intro env fuel h
    unfold eafMain
    rw [h]
    simp
  · intro s rel neg tp h
    simp only [eafParseArg] at h
    split_ifs at h with h1 <;> simp_all <;> omega

/-- Witness for the amended C7: "999999" is rejected before any device
contact, and the accepted "30" target lies in range. -/
theorem eaf_arg_check_witness :
    ((eafMain bigArgEnv 3).opened = false ∧ (eafMain bigArgEnv 3).cmds = [] ∧
      (eafMain bigArgEnv 3).exitCode = some 2) ∧
    (0 ≤ (30 : Int) ∧ (30 : Int) ≤ 65535) :=
  ⟨eaf_arg_check.1 bigArgEnv 3 (by decide),
   eaf_arg_check.2 ['3', '0'] false false 30 (by decide)⟩

/-! ## Claim C8 -/

/-- Claim C8: on every terminating execution path of either program a
device handle that was opened is closed exactly once before the process
exits, and no close happens when no open succeeded; no terminating path
leaves an opened handle unreleased. -/
theorem handle_released :
    (∀ env fuel e, (efwMain env fuel).exitCode = some e →
      ((efwMain env fuel).opened = true → (efwMain env fuel).closes = 1) ∧
      ((efwMain env fuel).opened = false → (efwMain env fuel).closes = 0)) ∧
    (∀ env fuel e, (eafMain env fuel).exitCode = some e →
      ((eafMain env fuel).opened = true → (eafMain env fuel).closes = 1) ∧
      ((eafMain env fuel).opened = false → (eafMain env fuel).closes = 0)) := by
  constructor
  · intro env fuel e
    unfold efwMain
    repeat' split
    all_goals try simp
    repeat' split
    all_goals try simp
    repeat' split
    all_goals try simp
    repeat' split
    all_goals simp
  · intro env fuel e
    unfold eafMain eafMainAfterOpen
    repeat' split
    all_goals try simp
    repeat' split
    all_goals try simp
    repeat' split
    all_goals try simp
    repeat' split
    all_goals simp

/-- Witness for C8 on two terminating runs: the stepping run (opened,
closed once) and the rejected-argument run (never opened, never closed). -/
theorem handle_released_witness :
    ((efwMain steppingEnv 10).opened = true → (efwMain steppingEnv 10).closes = 1) ∧
    ((eafMain bigArgEnv 3).opened = false → (eafMain bigArgEnv 3).closes = 0) :=
  ⟨(handle_released.1 steppingEnv 10 0 (by decide)).1,
   (handle_released.2 bigArgEnv 3 2 (by decide)).2⟩

/-! ## Claim C10 -/

/-- Claim C10: on every focuser get_position whose send and read both
succeed, the position extracted from the response is stored to the
caller's position out-parameter regardless of the status byte (the retval
is 0 or 1, never −1), and the maximum is stored exactly when the caller
supplied a max out-parameter. -/
theorem eaf_position_always_written (buf : List Nat) (hasMax : Bool) :
    (eaf_get_position ⟨16, 16, buf⟩ true hasMax).posret =
      some (byteAt buf 8 * 256 + byteAt buf 9) ∧
    ((eaf_get_position ⟨16, 16, buf⟩ true hasMax).posmaxret =
      if hasMax then some (byteAt buf 14 * 256 + byteAt buf 15) else none) ∧
    ((eaf_get_position ⟨16, 16, buf⟩ true hasMax).retval = 0 ∨
      (eaf_get_position ⟨16, 16, buf⟩ true hasMax).retval = 1) := by
  have hpos : (byteAt buf 8 <<< 8 ||| byteAt buf 9) % 65536
      = byteAt buf 8 * 256 + byteAt buf 9 := by
    rw [shiftLeft_lor_eq _ _ (byteAt_lt buf 9)]
    have h8 := byteAt_lt buf 8
    have h9 := byteAt_lt buf 9
    exact Nat.mod_eq_of_lt (by omega)
  have hmax : (byteAt buf 14 <<< 8 ||| byteAt buf 15) % 65536
      = byteAt buf 14 * 256 + byteAt buf 15 := by
    rw [shiftLeft_lor_eq _ _ (byteAt_lt buf 15)]
    have h14 := byteAt_lt buf 14
    have h15 := byteAt_lt buf 15
    exact Nat.mod_eq_of_lt (by omega)
  unfold eaf_get_position ZWO_REPORT_LEN
  norm_num [hpos, hmax]
  omega

end ZwoSet
